import Mathlib

/-!
Verification of the board-catalog loader of `src/board.rs` (iron-coder).

The filesystem is modelled as a tree of nodes.  Each directory listing can
fail (`read_dir` returning `Err`), each directory entry carries flags for
the two per-entry fallible operations the loader performs (`entry` itself
being `Ok`, and `entry.file_type()` succeeding), and each file carries the
abstract outcome of the three external operations the loader applies to
files: `fs::read_to_string` (readable or not), `toml::from_str` on its text
(a parsed record or a parse failure) and image decoding (a decoded bitmap
or a decode failure).  Panics (`unwrap` / `expect`) are modelled as
`Except.error` with the panic message; a panic aborts the whole scan, just
as it aborts the Rust process.
-/

namespace IronCoder

/-- The five board standards of `enum BoardStandards`. -/
inductive BoardStandards where
  | Feather
  | Arduino
  | RaspberryPi
  | ThingPlus
  | MicroMod
deriving DecidableEq, Repr

/-- Model of `egui::ColorImage` as produced from a decoded image:
a size plus the flat rgba sample list. -/
structure ColorImage where
  width : Nat
  height : Nat
  pixels : List Nat
deriving DecidableEq, Repr

/-- The declared fields of a `Board`, i.e. exactly what `toml::from_str`
deserialises.  The `#[serde(skip)]` fields (`examples`, `pic`) are not
part of the parsed data: serde fills them with defaults and
`load_from_toml` populates them from the filesystem afterwards. -/
structure ParsedBoard where
  name : String
  manufacturer : String
  standard : Option BoardStandards
  cpu : Option String
  ram : Option Int
  flash : Option Int
  related_crates : Option (List String)
deriving DecidableEq, Repr

/-- The `Board` struct of `board.rs`. -/
structure Board where
  name : String
  manufacturer : String
  standard : Option BoardStandards
  cpu : Option String
  ram : Option Int
  flash : Option Int
  examples : List (List String)
  pic : Option ColorImage
  related_crates : Option (List String)
deriving DecidableEq, Repr

/-- `impl cmp::PartialEq for Board`: "Boards are equal if their names are
equal" — `fn eq(&self, other: &Self) -> bool { self.name == other.name }`. -/
def Board.eq (a b : Board) : Bool :=
  a.name == b.name

/-- Outcomes of the external operations on one file's content:
whether `fs::read_to_string` succeeds, what `toml::from_str` returns on
its text, and what the image pipeline (`Reader::open` + `decode`)
returns when the file is treated as an image. -/
structure FileContent where
  readable : Bool
  parse : Option ParsedBoard
  decode : Option ColorImage
deriving DecidableEq, Repr

/-- The per-entry data of one directory entry as seen through
`fs::read_dir`: whether the `io::Result<DirEntry>` is `Ok`, whether
`entry.file_type()` succeeds, and the entry's file name. -/
structure EntryMeta where
  ok : Bool
  ftypeOk : Bool
  name : String
deriving DecidableEq, Repr

/-- A filesystem node: a file with its content outcomes, or a directory
whose listing either fails (`none`, i.e. `read_dir` returns `Err`) or
yields a list of named entries in enumeration order. -/
inductive FsNode where
  | file (content : FileContent)
  | dir (listing : Option (List (EntryMeta × FsNode)))
deriving Repr

/-- Splitting a character list at its last dot: `some (before, after)`
when a dot occurs, `none` otherwise. -/
def splitAtLastDot : List Char → Option (List Char × List Char)
  | [] => none
  | c :: cs =>
    match splitAtLastDot cs with
    | some (b, a) => some (c :: b, a)
    | none => if c = '.' then some ([], cs) else none

/-- Rust `Path::extension` on a file name: the portion after the last
dot, `none` when there is no dot or the only dot is the leading one
(hidden files such as ".toml" have no extension). -/
def pathExtension (fname : String) : Option String :=
  match splitAtLastDot fname.data with
  | none => none
  | some ([], _) => none
  | some (_, a) => some (String.mk a)

/-- Rust `Path::file_stem` on a file name: the file name with its
extension (and the dot before it) removed. -/
def fileStem (fname : String) : String :=
  match splitAtLastDot fname.data with
  | none => fname
  | some ([], _) => fname
  | some (b, _) => String.mk b

/-- Rust `Path::with_extension` on a file name, for a non-empty new
extension: the stem followed by a dot and the new extension. -/
def withExtension (fname ext : String) : String :=
  fileStem fname ++ "." ++ ext

/-- Looking up a sibling entry by name, as `canonicalize` does: the path
exists iff the directory has an entry of that name, and resolving it
yields that entry's node. -/
def findSibling (siblings : List (EntryMeta × FsNode)) (target : String) :
    Option FsNode :=
  (siblings.find? (fun e => e.1.name == target)).map (fun e => e.2)

/-- The sibling-image step of `load_from_toml`: `path.with_extension("png")`
is canonicalized (exists-check); if it does not exist the `pic` field is
left `None`; if it exists, `image::io::Reader::open(..).unwrap().decode().unwrap()`
decodes it, panicking on open/decode failure (a directory at that name
also fails to decode). -/
def loadPic (siblings : List (EntryMeta × FsNode)) (fname : String) :
    Except String (Option ColorImage) :=
  match findSibling siblings (withExtension fname "png") with
  | none => .ok none
  | some (FsNode.file c) =>
    match c.decode with
    | some img => .ok (some img)
    | none => .error "called unwrap on an image decode Err value"
  | some (FsNode.dir _) => .error "called unwrap on an image decode Err value"

/-- The loop body over the sibling `examples` directory in
`load_from_toml`: each entry is unwrapped (`e.unwrap()`, panicking on an
entry error) and its path pushed, in enumeration order. -/
def listExamplePaths (dirPath : List String) :
    List (EntryMeta × FsNode) → Except String (List (List String))
  | [] => .ok []
  | (m, _) :: rest =>
    if m.ok then
      match listExamplePaths dirPath rest with
      | .error e => .error e
      | .ok ps => .ok ((dirPath ++ ["examples", m.name]) :: ps)
    else .error "called unwrap on an example entry Err value"

/-- The sibling-examples step of `load_from_toml`:
`path.parent().unwrap().join("examples")` is canonicalized; if it does not
exist, `examples` stays empty; if it exists, `read_dir().unwrap()` lists
it (panicking if it is a file or its listing fails) and every entry path
is pushed. -/
def loadExamples (dirPath : List String)
    (siblings : List (EntryMeta × FsNode)) :
    Except String (List (List String)) :=
  match findSibling siblings "examples" with
  | none => .ok []
  | some (FsNode.file _) => .error "called unwrap on a read_dir Err value"
  | some (FsNode.dir none) => .error "called unwrap on a read_dir Err value"
  | some (FsNode.dir (some es)) => listExamplePaths dirPath es

/-- Assembling the returned `Board` from the parsed fields plus the two
filesystem-discovered fields. -/
def mkBoard (pb : ParsedBoard) (pic : Option ColorImage)
    (exs : List (List String)) : Board :=
  { name := pb.name, manufacturer := pb.manufacturer,
    standard := pb.standard, cpu := pb.cpu, ram := pb.ram,
    flash := pb.flash, examples := exs, pic := pic,
    related_crates := pb.related_crates }

/-- `Board::load_from_toml` on the file `fname` (content `content`) inside
the directory `dirPath` whose entries are `siblings`.  The inner
`Option` is the `std::io::Result`: `none` models `Err` (unreadable file,
or `toml::from_str` failure), which the caller logs and skips; the outer
`Except.error` models a panic. -/
def loadFromToml (dirPath : List String) (fname : String)
    (content : FileContent) (siblings : List (EntryMeta × FsNode)) :
    Except String (Option Board) :=
  if content.readable then
    match content.parse with
    | none => .ok none
    | some pb =>
      match loadPic siblings fname with
      | .error e => .error e
      | .ok pic =>
        match loadExamples dirPath siblings with
        | .error e => .error e
        | .ok exs => .ok (some (mkBoard pb pic exs))
  else .ok none

/-- The warning `get_boards` logs for a board file that fails to load:
`warn!("error loading board from {}", entry.path().display())`. -/
def warnMsg (p : List String) (fname : String) : String :=
  "error loading board from " ++ String.intercalate "/" (p ++ [fname])

/-- A scan result: the accumulated boards plus the warning messages
logged during the scan. -/
abbrev ScanResult := List Board × List String

mutual

/-- `get_boards(boards_dir)`: list the directory (an unlistable path –
failed `read_dir` or a non-directory – yields an empty result), then
process each entry via `scanEntries`.  `Except.error` models a panic
aborting the scan. -/
def getBoards (p : List String) : FsNode → Except String ScanResult
  | FsNode.file _ => .ok ([], [])
  | FsNode.dir none => .ok ([], [])
  | FsNode.dir (some es) => scanEntries p es es
termination_by n => sizeOf n

/-- The entry loop of `get_boards`: each entry is unwrapped
(`expect("error with entry")`), its file type queried
(`expect("error parsing file type")`); a directory whose path ends with
"examples" is skipped, any other directory is recursed into and its
boards and warnings appended; a file with extension "toml" is loaded
(success pushes the board, failure logs a warning), a file with any other
extension is ignored, and a file with no extension panics at
`extension().unwrap()`. `siblings` is the full listing of the directory
being scanned, used by `load_from_toml` for sibling discovery. -/
def scanEntries (p : List String) (siblings : List (EntryMeta × FsNode)) :
    List (EntryMeta × FsNode) → Except String ScanResult
  | [] => .ok ([], [])
  | (m, node) :: rest =>
    if m.ok = false then .error "error with entry"
    else if m.ftypeOk = false then .error "error parsing file type"
    else
      match node with
      | FsNode.dir d =>
        if m.name = "examples" then scanEntries p siblings rest
        else
          match getBoards (p ++ [m.name]) (FsNode.dir d) with
          | .error e => .error e
          | .ok (bs1, ws1) =>
            match scanEntries p siblings rest with
            | .error e => .error e
            | .ok (bs2, ws2) => .ok (bs1 ++ bs2, ws1 ++ ws2)
      | FsNode.file c =>
        match pathExtension m.name with
        | none => .error "called unwrap on a None value"
        | some ext =>
          if ext = "toml" then
            match loadFromToml p m.name c siblings with
            | .error e => .error e
            | .ok (some b) =>
              match scanEntries p siblings rest with
              | .error e => .error e
              | .ok (bs2, ws2) => .ok (b :: bs2, ws2)
            | .ok none =>
              match scanEntries p siblings rest with
              | .error e => .error e
              | .ok (bs2, ws2) => .ok (bs2, warnMsg p m.name :: ws2)
          else scanEntries p siblings rest
termination_by l => sizeOf l

end

/-! Spec-side counting of valid board files, for the refinement claim
about the length of the returned catalog. -/

/-- Following the spec: a "valid, parsable metadata (.toml) file" is a
file whose name has extension "toml", that can be read, and whose text
parses. -/
def isValidBoardFile (m : EntryMeta) (c : FileContent) : Bool :=
  (pathExtension m.name == some "toml") && (c.readable && c.parse.isSome)

mutual

/-- Following the spec: the number of valid, parsable metadata files
reachable under a root, where traversal never descends into any
directory named "examples". -/
def countValid : FsNode → Nat
  | FsNode.file _ => 0
  | FsNode.dir none => 0
  | FsNode.dir (some es) => countValidList es
termination_by n => sizeOf n

/-- List version of `countValid`, over the entries of one directory. -/
def countValidList : List (EntryMeta × FsNode) → Nat
  | [] => 0
  | (m, FsNode.file c) :: rest =>
    (if isValidBoardFile m c then 1 else 0) + countValidList rest
  | (m, FsNode.dir d) :: rest =>
    (if m.name = "examples" then 0 else countValid (FsNode.dir d))
      + countValidList rest
termination_by l => sizeOf l

end

/-! Concrete fixtures used to exercise the definitions at concrete
inputs. -/

/-- A parsed record as `toml::from_str` would produce it for the
spec's example scenario. -/
def samplePB : ParsedBoard :=
  { name := "Feather M4", manufacturer := "Adafruit",
    standard := some BoardStandards.Feather, cpu := some "ATSAMD51",
    ram := some 192, flash := some 512,
    related_crates := some ["feather_m4"] }

/-- Content of a readable board file that parses. -/
def tomlOkContent : FileContent :=
  { readable := true, parse := some samplePB, decode := none }

/-- Content of a readable file that fails to parse. -/
def tomlBadContent : FileContent :=
  { readable := true, parse := none, decode := none }

/-- Content of an image file that decodes. -/
def pngOkContent : FileContent :=
  { readable := true, parse := none,
    decode := some { width := 2, height := 2, pixels := [0, 1, 2, 3] } }

/-- Content of an image file that fails to decode. -/
def pngBadContent : FileContent :=
  { readable := true, parse := none, decode := none }

/-- A directory entry with no iteration or file-type error. -/
def okMeta (n : String) : EntryMeta :=
  { ok := true, ftypeOk := true, name := n }

/-- The decoded bitmap of the sample image file. -/
def sampleImg : ColorImage :=
  { width := 2, height := 2, pixels := [0, 1, 2, 3] }

/-- The listing of the sample board directory: a parsable board file,
its same-stem image, and an examples directory with one file. -/
def sampleBoardDir : List (EntryMeta × FsNode) :=
  [(okMeta "feather_m4.toml", FsNode.file tomlOkContent),
   (okMeta "feather_m4.png", FsNode.file pngOkContent),
   (okMeta "examples",
     FsNode.dir (some [(okMeta "blink.ino", FsNode.file tomlBadContent)]))]

/-- The sample root tree: `boards/Adafruit/Feather M4/...`. -/
def sampleRoot : FsNode :=
  FsNode.dir (some [(okMeta "Adafruit", FsNode.dir (some
    [(okMeta "Feather M4", FsNode.dir (some sampleBoardDir))]))])

/-- The board the sample tree yields. -/
def sampleBoard : Board :=
  mkBoard samplePB (some sampleImg)
    [["boards", "Adafruit", "Feather M4", "examples", "blink.ino"]]

/-- The tree for claim C8: a directory holding one regular file whose
name "README" has no extension. -/
def noExtTree : FsNode :=
  FsNode.dir (some [(okMeta "README", FsNode.file tomlBadContent)])

/-- The sibling listing for claim C9: a board file together with a
same-stem png that exists but fails to decode. -/
def undecodableImgDir : List (EntryMeta × FsNode) :=
  [(okMeta "feather_m4.toml", FsNode.file tomlOkContent),
   (okMeta "feather_m4.png", FsNode.file pngBadContent)]

/-! Case-by-case unfolding lemmas for the two scan functions (their
well-founded recursion does not reduce definitionally). -/

theorem getBoards_file (p : List String) (c : FileContent) :
    getBoards p (FsNode.file c) = .ok ([], []) := by
  simp [getBoards]

theorem getBoards_dir_none (p : List String) :
    getBoards p (FsNode.dir none) = .ok ([], []) := by
  simp [getBoards]

theorem getBoards_dir_some (p : List String)
    (es : List (EntryMeta × FsNode)) :
    getBoards p (FsNode.dir (some es)) = scanEntries p es es := by
  simp [getBoards]

theorem scanEntries_nil (p : List String)
    (siblings : List (EntryMeta × FsNode)) :
    scanEntries p siblings [] = .ok ([], []) := by
  simp [scanEntries]

theorem scanEntries_entry_err (p : List String)
    (siblings rest : List (EntryMeta × FsNode)) (m : EntryMeta)
    (node : FsNode) (hm : m.ok = false) :
    scanEntries p siblings ((m, node) :: rest) = .error "error with entry" := by
  rw [scanEntries.eq_def]
  simp [hm]

theorem scanEntries_ftype_err (p : List String)
    (siblings rest : List (EntryMeta × FsNode)) (m : EntryMeta)
    (node : FsNode) (hm : m.ok = true) (hf : m.ftypeOk = false) :
    scanEntries p siblings ((m, node) :: rest)
      = .error "error parsing file type" := by
  rw [scanEntries.eq_def]
  simp [hm, hf]

theorem scanEntries_dir_examples (p : List String)
    (siblings rest : List (EntryMeta × FsNode)) (m : EntryMeta)
    (d : Option (List (EntryMeta × FsNode))) (hm : m.ok = true)
    (hf : m.ftypeOk = true) (hn : m.name = "examples") :
    scanEntries p siblings ((m, FsNode.dir d) :: rest)
      = scanEntries p siblings rest := by
  rw [scanEntries]
  simp [hm, hf, hn]

theorem scanEntries_dir_rec (p : List String)
    (siblings rest : List (EntryMeta × FsNode)) (m : EntryMeta)
    (d : Option (List (EntryMeta × FsNode))) (hm : m.ok = true)
    (hf : m.ftypeOk = true) (hn : ¬m.name = "examples") :
    scanEntries p siblings ((m, FsNode.dir d) :: rest)
      = match getBoards (p ++ [m.name]) (FsNode.dir d) with
        | .error e => .error e
        | .ok (bs1, ws1) =>
          match scanEntries p siblings rest with
          | .error e => .error e
          | .ok (bs2, ws2) => .ok (bs1 ++ bs2, ws1 ++ ws2) := by
  rw [scanEntries]
  simp [hm, hf, hn]

theorem scanEntries_file_noext (p : List String)
    (siblings rest : List (EntryMeta × FsNode)) (m : EntryMeta)
    (c : FileContent) (hm : m.ok = true) (hf : m.ftypeOk = true)
    (he : pathExtension m.name = none) :
    scanEntries p siblings ((m, FsNode.file c) :: rest)
      = .error "called unwrap on a None value" := by
  rw [scanEntries]
  simp [hm, hf, he]

theorem scanEntries_file_toml (p : List String)
    (siblings rest : List (EntryMeta × FsNode)) (m : EntryMeta)
    (c : FileContent) (hm : m.ok = true) (hf : m.ftypeOk = true)
    (he : pathExtension m.name = some "toml") :
    scanEntries p siblings ((m, FsNode.file c) :: rest)
      = match loadFromToml p m.name c siblings with
        | .error e => .error e
        | .ok (some b) =>
          match scanEntries p siblings rest with
          | .error e => .error e
          | .ok (bs2, ws2) => .ok (b :: bs2, ws2)
        | .ok none =>
          match scanEntries p siblings rest with
          | .error e => .error e
          | .ok (bs2, ws2) => .ok (bs2, warnMsg p m.name :: ws2) := by
  rw [scanEntries]
  simp [hm, hf, he]

theorem scanEntries_file_other (p : List String)
    (siblings rest : List (EntryMeta × FsNode)) (m : EntryMeta)
    (c : FileContent) (ext : String) (hm : m.ok = true)
    (hf : m.ftypeOk = true) (he : pathExtension m.name = some ext)
    (ht : ¬ext = "toml") :
    scanEntries p siblings ((m, FsNode.file c) :: rest)
      = scanEntries p siblings rest := by
  rw [scanEntries]
  simp [hm, hf, he, ht]

theorem countValid_file (c : FileContent) :
    countValid (FsNode.file c) = 0 := by
  simp [countValid]

theorem countValid_dir_none : countValid (FsNode.dir none) = 0 := by
  simp [countValid]

theorem countValid_dir_some (es : List (EntryMeta × FsNode)) :
    countValid (FsNode.dir (some es)) = countValidList es := by
  simp [countValid]

theorem countValidList_nil : countValidList [] = 0 := by
  simp [countValidList]

theorem countValidList_cons_file (m : EntryMeta) (c : FileContent)
    (rest : List (EntryMeta × FsNode)) :
    countValidList ((m, FsNode.file c) :: rest)
      = (if isValidBoardFile m c then 1 else 0) + countValidList rest := by
  simp [countValidList]

theorem countValidList_cons_dir (m : EntryMeta)
    (d : Option (List (EntryMeta × FsNode)))
    (rest : List (EntryMeta × FsNode)) :
    countValidList ((m, FsNode.dir d) :: rest)
      = (if m.name = "examples" then 0 else countValid (FsNode.dir d))
        + countValidList rest := by
  simp [countValidList]

/-- When `load_from_toml` returns `Ok` (no panic), it returns a board
exactly when the file is readable and its text parses. -/
theorem loadFromToml_ok_isSome (dirPath : List String) (fname : String)
    (c : FileContent) (siblings : List (EntryMeta × FsNode))
    (r : Option Board)
    (h : loadFromToml dirPath fname c siblings = .ok r) :
    r.isSome = (c.readable && c.parse.isSome) := by
  unfold loadFromToml at h
  cases hr : c.readable with
  | false => simp [hr] at h; subst h; simp [hr]
  | true =>
    simp [hr] at h
    cases hp : c.parse with
    | none => simp [hp] at h; subst h; simp [hr, hp]
    | some pb =>
      simp [hp] at h
      cases hpic : loadPic siblings fname with
      | error e => simp [hpic] at h
      | ok pic =>
        simp [hpic] at h
        cases hex : loadExamples dirPath siblings with
        | error e => simp [hex] at h
        | ok exs =>
          simp [hex] at h
          subst h
          simp [hr, hp]

/-- Auxiliary to the catalog-length claim: whenever the scan completes
without a panic, the number of boards returned equals the spec-side
count of valid board files, simultaneously for whole nodes and for
entry lists. -/
theorem getBoards_ok_length :
    ∀ (p : List String) (n : FsNode), ∀ res : ScanResult,
      getBoards p n = .ok res → res.1.length = countValid n := by
  apply getBoards.induct
    (fun p n => ∀ res : ScanResult,
      getBoards p n = .ok res → res.1.length = countValid n)
    (fun p siblings l => ∀ res : ScanResult,
      scanEntries p siblings l = .ok res → res.1.length = countValidList l)
  · intro p content res h
    rw [getBoards_file] at h
    simp at h
    simp [← h, countValid_file]
  · intro p res h
    rw [getBoards_dir_none] at h
    simp at h
    simp [← h, countValid_dir_none]
  · intro p es ih res h
    rw [getBoards_dir_some] at h
    rw [countValid_dir_some]
    exact ih res h
  · intro p siblings res h
    rw [scanEntries_nil] at h
    simp at h
    simp [← h, countValidList_nil]
  · intro p siblings m snd rest hok res h
    rw [scanEntries_entry_err p siblings rest m snd hok] at h
    simp at h
  · intro p siblings m snd rest h1 h2 res h
    have hm : m.ok = true := by simpa using h1
    rw [scanEntries_ftype_err p siblings rest m snd hm h2] at h
    simp at h
  · intro p siblings m rest h1 h2 d hn ih res h
    have hm : m.ok = true := by simpa using h1
    have hf : m.ftypeOk = true := by simpa using h2
    rw [scanEntries_dir_examples p siblings rest m d hm hf hn] at h
    rw [countValidList_cons_dir, if_pos hn]
    simpa using ih res h
  · intro p siblings m rest h1 h2 d hn e hg ih1 res h
    have hm : m.ok = true := by simpa using h1
    have hf : m.ftypeOk = true := by simpa using h2
    rw [scanEntries_dir_rec p siblings rest m d hm hf hn, hg] at h
    simp at h
  · intro p siblings m rest h1 h2 d hn bs1 ws1 hg e hs ih1 ih2 res h
    have hm : m.ok = true := by simpa using h1
    have hf : m.ftypeOk = true := by simpa using h2
    rw [scanEntries_dir_rec p siblings rest m d hm hf hn, hg, hs] at h
    simp at h
  · intro p siblings m rest h1 h2 d hn bs1 ws1 hg bs2 ws2 hs ih1 ih2 res h
    have hm : m.ok = true := by simpa using h1
    have hf : m.ftypeOk = true := by simpa using h2
    rw [scanEntries_dir_rec p siblings rest m d hm hf hn, hg, hs] at h
    simp at h
    rw [countValidList_cons_dir, if_neg hn, ← h]
    have e1 := ih1 (bs1, ws1) hg
    have e2 := ih2 (bs2, ws2) hs
    simp at e1 e2
    simp [e1, e2]
  · intro p siblings m rest h1 h2 c he res h
    have hm : m.ok = true := by simpa using h1
    have hf : m.ftypeOk = true := by simpa using h2
    rw [scanEntries_file_noext p siblings rest m c hm hf he] at h
    simp at h
  · intro p siblings m rest h1 h2 c e hl he res h
    have hm : m.ok = true := by simpa using h1
    have hf : m.ftypeOk = true := by simpa using h2
    rw [scanEntries_file_toml p siblings rest m c hm hf he, hl] at h
    simp at h
  · intro p siblings m rest h1 h2 c b hl e hs he ih2 res h
    have hm : m.ok = true := by simpa using h1
    have hf : m.ftypeOk = true := by simpa using h2
    rw [scanEntries_file_toml p siblings rest m c hm hf he, hl, hs] at h
    simp at h
  · intro p siblings m rest h1 h2 c b hl bs2 ws2 hs he ih2 res h
    have hm : m.ok = true := by simpa using h1
    have hf : m.ftypeOk = true := by simpa using h2
    rw [scanEntries_file_toml p siblings rest m c hm hf he, hl, hs] at h
    simp at h
    have hv := loadFromToml_ok_isSome p m.name c siblings (some b) hl
    simp at hv
    rw [countValidList_cons_file, ← h]
    have e2 := ih2 (bs2, ws2) hs
    simp at e2
    have hval : isValidBoardFile m c = true := by
      simp [isValidBoardFile, he, hv.1, hv.2]
    rw [hval]
    simp [e2]
    omega
  · intro p siblings m rest h1 h2 c hl e hs he ih2 res h
    have hm : m.ok = true := by simpa using h1
    have hf : m.ftypeOk = true := by simpa using h2
    rw [scanEntries_file_toml p siblings rest m c hm hf he, hl, hs] at h
    simp at h
  · intro p siblings m rest h1 h2 c hl bs2 ws2 hs he ih2 res h
    have hm : m.ok = true := by simpa using h1
    have hf : m.ftypeOk = true := by simpa using h2
    rw [scanEntries_file_toml p siblings rest m c hm hf he, hl, hs] at h
    simp at h
    have hv := loadFromToml_ok_isSome p m.name c siblings none hl
    simp at hv
    rw [countValidList_cons_file, ← h]
    have e2 := ih2 (bs2, ws2) hs
    simp at e2
    have hval : isValidBoardFile m c = false := by
      simp [isValidBoardFile, he]
      exact hv
    rw [hval]
    simp [e2]
  · intro p siblings m rest h1 h2 c ext he hne ih2 res h
    have hm : m.ok = true := by simpa using h1
    have hf : m.ftypeOk = true := by simpa using h2
    rw [scanEntries_file_other p siblings rest m c ext hm hf he hne] at h
    rw [countValidList_cons_file]
    have hval : isValidBoardFile m c = false := by
      simp [isValidBoardFile, he]
      intro hcon
      exact absurd hcon hne
    rw [hval]
    simpa using ih2 res h

/-- A board file that cannot be read, or whose text fails to parse,
makes `load_from_toml` return `Err` (modelled `.ok none`), never a
panic. -/
theorem loadFromToml_fails (dirPath : List String) (fname : String)
    (c : FileContent) (siblings : List (EntryMeta × FsNode))
    (h : c.readable = false ∨ c.parse = none) :
    loadFromToml dirPath fname c siblings = .ok none := by
  unfold loadFromToml
  rcases h with h | h
  · simp [h]
  · cases hr : c.readable <;> simp [h, hr]

/-- When every entry of the examples directory iterates without error,
the loop collects exactly the entry paths, in order. -/
theorem listExamplePaths_all_ok (dirPath : List String) :
    ∀ es : List (EntryMeta × FsNode), (∀ e ∈ es, e.1.ok = true) →
      listExamplePaths dirPath es
        = .ok (es.map (fun e => dirPath ++ ["examples", e.1.name])) := by
  intro es
  induction es with
  | nil => intro _; simp [listExamplePaths]
  | cons e rest ih =>
    intro h
    have he : e.1.ok = true := h e (by simp)
    have hrest := ih (fun x hx => h x (by simp [hx]))
    obtain ⟨m, node⟩ := e
    simp only [listExamplePaths]
    simp at he
    rw [if_pos he, hrest]
    simp

/-- Claim C1: for every root directory, whenever `get_boards` completes
(returns a sequence rather than panicking), the length of the returned
sequence equals the number of valid, parsable metadata (.toml) files
reachable under the root, where traversal never descends into any
directory named "examples" (`countValid` states that count in the
spec's terms). -/
theorem getBoards_length_eq_countValid (p : List String) (n : FsNode)
    (res : ScanResult) (h : getBoards p n = .ok res) :
    res.1.length = countValid n :=
  getBoards_ok_length p n res h

/-- Evaluation of the scan on the sample tree: it returns exactly the
sample board and no warnings. -/
theorem sampleRoot_eval :
    getBoards ["boards"] sampleRoot = .ok ([sampleBoard], []) := by
  have hload : loadFromToml ["boards", "Adafruit", "Feather M4"]
      "feather_m4.toml" tomlOkContent
      [({ ok := true, ftypeOk := true, name := "feather_m4.toml" },
         FsNode.file tomlOkContent),
       ({ ok := true, ftypeOk := true, name := "feather_m4.png" },
         FsNode.file pngOkContent),
       ({ ok := true, ftypeOk := true, name := "examples" },
         FsNode.dir (some
           [({ ok := true, ftypeOk := true, name := "blink.ino" },
             FsNode.file tomlBadContent)]))]
        = .ok (some sampleBoard) := rfl
  rw [sampleRoot, sampleBoardDir, getBoards_dir_some]
  rw [scanEntries_dir_rec _ _ _ _ _ rfl rfl (by decide)]
  rw [getBoards_dir_some]
  rw [scanEntries_dir_rec _ _ _ _ _ rfl rfl (by decide)]
  rw [getBoards_dir_some]
  rw [scanEntries_file_toml _ _ _ _ _ rfl rfl (by decide)]
  rw [scanEntries_file_other _ _ _ _ _ "png" rfl rfl (by decide) (by decide)]
  rw [scanEntries_dir_examples _ _ _ _ _ rfl rfl rfl]
  simp only [scanEntries_nil, okMeta, List.cons_append, List.nil_append]
  rw [hload]
  rfl

/-- Witness for claim C1 at the sample tree: the scan returns one board
and the spec-side count of valid board files under the root is also
that sequence's length. -/
theorem getBoards_length_eq_countValid_witness :
    getBoards ["boards"] sampleRoot = .ok ([sampleBoard], []) ∧
    (([sampleBoard], ([] : List String)) : ScanResult).1.length
      = countValid sampleRoot :=
  ⟨sampleRoot_eval,
   getBoards_length_eq_countValid ["boards"] sampleRoot
     ([sampleBoard], []) sampleRoot_eval⟩

/-- Claim C2: when the root directory cannot be listed — `read_dir`
fails because the directory is missing, unreadable, or a non-directory —
`get_boards` returns an empty sequence instead of an error or a panic. -/
theorem getBoards_unlistable_empty :
    (∀ p : List String, getBoards p (FsNode.dir none) = .ok ([], [])) ∧
    (∀ (p : List String) (c : FileContent),
      getBoards p (FsNode.file c) = .ok ([], [])) :=
  ⟨fun p => getBoards_dir_none p, fun p c => getBoards_file p c⟩

/-- Claim C5: two `Board` records are equal exactly when their names
are equal, regardless of every other field. -/
theorem board_eq_iff_name_eq (a b : Board) :
    Board.eq a b = true ↔ a.name = b.name := by
  simp [Board.eq]

/-- Claim C8: on a tree containing a non-directory entry whose filename
has no extension, the `extension().unwrap()` check panics and the whole
scan crashes instead of skipping the file. -/
theorem getBoards_no_extension_panics :
    getBoards ["boards"] noExtTree = .error "called unwrap on a None value" := by
  rw [noExtTree, getBoards_dir_some]
  exact scanEntries_file_noext _ _ _ _ _ rfl rfl (by decide)

/-- Claim C9: on a metadata file whose same-stem sibling image exists
but cannot be decoded, `load_from_toml` panics (aborting the process)
instead of returning an image-less board or a recoverable error. -/
theorem loadFromToml_bad_image_panics :
    loadFromToml ["boards", "Adafruit", "Feather M4"] "feather_m4.toml"
        tomlOkContent undecodableImgDir
      = .error "called unwrap on an image decode Err value" := by
  rfl

/-- Claim C10: the silent-degradation policy stops at the directory
listing: after a successful listing, an `Err` on an individual entry or
on its file-type query makes `get_boards` panic (via `expect`) instead
of skipping the entry or returning the boards accumulated so far. -/
theorem getBoards_entry_errors_panic (p : List String) (m : EntryMeta)
    (node : FsNode) (rest : List (EntryMeta × FsNode)) :
    (m.ok = false →
      getBoards p (FsNode.dir (some ((m, node) :: rest)))
        = .error "error with entry") ∧
    (m.ok = true → m.ftypeOk = false →
      getBoards p (FsNode.dir (some ((m, node) :: rest)))
        = .error "error parsing file type") := by
  constructor
  · intro hok
    rw [getBoards_dir_some]
    exact scanEntries_entry_err _ _ _ _ _ hok
  · intro hok hft
    rw [getBoards_dir_some]
    exact scanEntries_ftype_err _ _ _ _ _ hok hft

/-- Witness for claim C10 at concrete inputs: a failed entry and a
failed file-type query each crash the scan. -/
theorem getBoards_entry_errors_panic_witness :
    getBoards ["boards"]
        (FsNode.dir (some [({ ok := false, ftypeOk := true, name := "x" },
          FsNode.dir none)]))
      = .error "error with entry" ∧
    getBoards ["boards"]
        (FsNode.dir (some [({ ok := true, ftypeOk := false, name := "x" },
          FsNode.dir none)]))
      = .error "error parsing file type" :=
  ⟨(getBoards_entry_errors_panic ["boards"]
      { ok := false, ftypeOk := true, name := "x" } (FsNode.dir none) []).1 rfl,
   (getBoards_entry_errors_panic ["boards"]
      { ok := true, ftypeOk := false, name := "x" } (FsNode.dir none) []).2 rfl rfl⟩

/-- Claim C3: during traversal an entry that is a directory named
exactly "examples" is skipped entirely — it is never recursed into, so
the scan result neither depends on its contents nor differs from the
scan of the remaining entries — while a directory with any other name
is recursed into and its boards and warnings are appended before the
remaining entries are processed. -/
theorem scan_examples_skipped_others_recursed (p : List String)
    (siblings rest : List (EntryMeta × FsNode)) (m : EntryMeta)
    (d : Option (List (EntryMeta × FsNode)))
    (hm : m.ok = true) (hf : m.ftypeOk = true) :
    (m.name = "examples" →
      (∀ d2, scanEntries p siblings ((m, FsNode.dir d) :: rest)
        = scanEntries p siblings ((m, FsNode.dir d2) :: rest)) ∧
      scanEntries p siblings ((m, FsNode.dir d) :: rest)
        = scanEntries p siblings rest) ∧
    (¬m.name = "examples" →
      scanEntries p siblings ((m, FsNode.dir d) :: rest)
        = match getBoards (p ++ [m.name]) (FsNode.dir d) with
          | .error e => .error e
          | .ok (bs1, ws1) =>
            match scanEntries p siblings rest with
            | .error e => .error e
            | .ok (bs2, ws2) => .ok (bs1 ++ bs2, ws1 ++ ws2)) := by
  constructor
  · intro hn
    refine ⟨fun d2 => ?_, ?_⟩
    · rw [scanEntries_dir_examples p siblings rest m d hm hf hn,
        scanEntries_dir_examples p siblings rest m d2 hm hf hn]
    · exact scanEntries_dir_examples p siblings rest m d hm hf hn
  · intro hn
    exact scanEntries_dir_rec p siblings rest m d hm hf hn

/-- Witness for claim C3 at concrete inputs: an "examples" directory
full of entries contributes nothing, and an "Adafruit" directory is
recursed into with its results appended. -/
theorem scan_examples_skipped_others_recursed_witness :
    (scanEntries ["r"] [] [(okMeta "examples", FsNode.dir (some sampleBoardDir))]
      = scanEntries ["r"] [] []) ∧
    (scanEntries ["r"] [] [(okMeta "Adafruit", FsNode.dir none)]
      = match getBoards (["r"] ++ ["Adafruit"]) (FsNode.dir none) with
        | .error e => .error e
        | .ok (bs1, ws1) =>
          match scanEntries ["r"] [] [] with
          | .error e => .error e
          | .ok (bs2, ws2) => .ok (bs1 ++ bs2, ws1 ++ ws2)) :=
  ⟨((scan_examples_skipped_others_recursed ["r"] [] [] (okMeta "examples")
      (some sampleBoardDir) rfl rfl).1 rfl).2,
   (scan_examples_skipped_others_recursed ["r"] [] [] (okMeta "Adafruit")
      none rfl rfl).2 (by decide)⟩

/-- Claim C4: a board file that cannot be read, or whose content fails
to parse, makes the scan log a warning naming the file path and skip
the entry, leaving the rest of the scan unaffected — so every other
valid board in the tree is still returned and a per-file failure never
aborts the catalog build. -/
theorem scan_malformed_skipped_logged (p : List String)
    (siblings rest : List (EntryMeta × FsNode)) (m : EntryMeta)
    (c : FileContent) (hm : m.ok = true) (hf : m.ftypeOk = true)
    (he : pathExtension m.name = some "toml")
    (hbad : c.readable = false ∨ c.parse = none) :
    scanEntries p siblings ((m, FsNode.file c) :: rest)
      = Except.map (fun r : ScanResult => (r.1, warnMsg p m.name :: r.2))
          (scanEntries p siblings rest) ∧
    warnMsg p m.name
      = "error loading board from " ++ String.intercalate "/" (p ++ [m.name]) := by
  refine ⟨?_, rfl⟩
  rw [scanEntries_file_toml p siblings rest m c hm hf he,
    loadFromToml_fails p m.name c siblings hbad]
  cases hs : scanEntries p siblings rest with
  | error e => simp [Except.map]
  | ok r =>
    obtain ⟨bs, ws⟩ := r
    simp [Except.map]

/-- Witness for claim C4 at a concrete directory: a malformed board
file followed by a valid one is skipped with the path-naming warning
while the valid one is still scanned. -/
theorem scan_malformed_skipped_logged_witness :
    pathExtension "bad.toml" = some "toml" ∧
    (scanEntries ["r"]
        [(okMeta "bad.toml", FsNode.file tomlBadContent),
         (okMeta "feather_m4.toml", FsNode.file tomlOkContent)]
        ((okMeta "bad.toml", FsNode.file tomlBadContent)
          :: [(okMeta "feather_m4.toml", FsNode.file tomlOkContent)])
      = Except.map
          (fun r : ScanResult => (r.1, warnMsg ["r"] "bad.toml" :: r.2))
          (scanEntries ["r"]
            [(okMeta "bad.toml", FsNode.file tomlBadContent),
             (okMeta "feather_m4.toml", FsNode.file tomlOkContent)]
            [(okMeta "feather_m4.toml", FsNode.file tomlOkContent)])) :=
  ⟨by decide,
   (scan_malformed_skipped_logged ["r"]
      [(okMeta "bad.toml", FsNode.file tomlBadContent),
       (okMeta "feather_m4.toml", FsNode.file tomlOkContent)]
      [(okMeta "feather_m4.toml", FsNode.file tomlOkContent)]
      (okMeta "bad.toml") tomlBadContent rfl rfl (by decide)
      (Or.inr rfl)).1⟩

/-- Claim C6: a metadata file that parses but has no same-stem sibling
image file yields — absent a panic in the examples step — a board whose
image field is `None`; this is a success (`Ok`), not an error. -/
theorem loadFromToml_no_image_ok (dirPath : List String) (fname : String)
    (c : FileContent) (siblings : List (EntryMeta × FsNode))
    (pb : ParsedBoard) (exs : List (List String))
    (hr : c.readable = true) (hp : c.parse = some pb)
    (hpng : findSibling siblings (withExtension fname "png") = none)
    (hex : loadExamples dirPath siblings = .ok exs) :
    loadFromToml dirPath fname c siblings = .ok (some (mkBoard pb none exs))
      ∧ (mkBoard pb none exs).pic = none := by
  constructor
  · unfold loadFromToml
    simp [hr, hp, loadPic, hpng, hex]
  · rfl

/-- Witness for claim C6 at a concrete directory holding only the board
file itself: the load succeeds and the image field is empty. -/
theorem loadFromToml_no_image_ok_witness :
    loadFromToml ["b"] "x.toml" tomlOkContent
        [(okMeta "x.toml", FsNode.file tomlOkContent)]
      = .ok (some (mkBoard samplePB none []))
      ∧ (mkBoard samplePB none []).pic = none :=
  loadFromToml_no_image_ok ["b"] "x.toml" tomlOkContent
    [(okMeta "x.toml", FsNode.file tomlOkContent)] samplePB []
    rfl rfl rfl rfl

/-- Claim C7: for a metadata file that parses and whose image step does
not panic, the absence of a sibling "examples" directory yields a board
with an empty examples sequence (a success, not an error); when a
listable sibling "examples" directory is present and its entries
iterate without error, the examples sequence records each immediate
entry's path — files and subdirectories alike, unfiltered — in
enumeration order. -/
theorem loadFromToml_examples_discovery (dirPath : List String)
    (fname : String) (c : FileContent)
    (siblings : List (EntryMeta × FsNode)) (pb : ParsedBoard)
    (pic : Option ColorImage) (hr : c.readable = true)
    (hp : c.parse = some pb) (hpic : loadPic siblings fname = .ok pic) :
    (findSibling siblings "examples" = none →
      loadFromToml dirPath fname c siblings
        = .ok (some (mkBoard pb pic []))) ∧
    (∀ es : List (EntryMeta × FsNode),
      findSibling siblings "examples" = some (FsNode.dir (some es)) →
      (∀ e ∈ es, e.1.ok = true) →
      loadFromToml dirPath fname c siblings
        = .ok (some (mkBoard pb pic
            (es.map (fun e => dirPath ++ ["examples", e.1.name]))))) := by
  constructor
  · intro hnone
    unfold loadFromToml
    simp [hr, hp, hpic, loadExamples, hnone]
  · intro es hsome hok
    unfold loadFromToml
    simp [hr, hp, hpic, loadExamples, hsome,
      listExamplePaths_all_ok dirPath es hok]

/-- Witness for claim C7 at two concrete directories: without an
"examples" sibling the examples list is empty; with one present holding
a file and a subdirectory, both entries' paths are recorded in order. -/
theorem loadFromToml_examples_discovery_witness :
    (loadFromToml ["b"] "x.toml" tomlOkContent
        [(okMeta "x.toml", FsNode.file tomlOkContent)]
      = .ok (some (mkBoard samplePB none []))) ∧
    (loadFromToml ["b"] "x.toml" tomlOkContent
        [(okMeta "x.toml", FsNode.file tomlOkContent),
         (okMeta "examples", FsNode.dir (some
           [(okMeta "blink.ino", FsNode.file tomlBadContent),
            (okMeta "sub", FsNode.dir none)]))]
      = .ok (some (mkBoard samplePB none
          [["b", "examples", "blink.ino"], ["b", "examples", "sub"]]))) :=
  ⟨(loadFromToml_examples_discovery ["b"] "x.toml" tomlOkContent
      [(okMeta "x.toml", FsNode.file tomlOkContent)] samplePB none
      rfl rfl rfl).1 rfl,
   (loadFromToml_examples_discovery ["b"] "x.toml" tomlOkContent
      [(okMeta "x.toml", FsNode.file tomlOkContent),
       (okMeta "examples", FsNode.dir (some
         [(okMeta "blink.ino", FsNode.file tomlBadContent),
          (okMeta "sub", FsNode.dir none)]))] samplePB none
      rfl rfl rfl).2
      [(okMeta "blink.ino", FsNode.file tomlBadContent),
       (okMeta "sub", FsNode.dir none)]
      rfl (by decide)⟩

end IronCoder
